import Mathlib

/-!
Shallow embedding of the duckdb claude-logs extension (Rust sources under
src/): JSON values as an inductive type, the serde-style decoders for the
conversation/history/todo record types, the row projection and backfill
logic of the conversations table, file discovery, provider detection, and
the batch-cursor pagination of the generic table function.

Modelling conventions.
JSON numbers are modelled as integers (the claims under study only involve
integer token counts and sentinel indices); text lines arrive already
classified by the outcome of JSON syntax parsing (blank, non-JSON text, or
a parsed JSON value), mirroring the code's serde_json::from_str pipeline;
Rust's stable sort_by_key is modelled by a stable insertion sort over the
byte-lexicographic order on names, which computes the same list.
-/

/-- Model of serde_json::Value.  Object fields are kept in document order. -/
inductive Json where
  | null
  | bool (b : Bool)
  | num (n : Int)
  | str (s : String)
  | arr (xs : List Json)
  | obj (kvs : List (String × Json))

/-- Hexadecimal digit used by the string escaper. -/
def hexDigit (n : Nat) : Char :=
  if n < 10 then Char.ofNat (48 + n) else Char.ofNat (87 + n)

/-- Escape of a single character inside a JSON string literal. -/
def escChar (c : Char) : String :=
  if c = '"' then "\\\""
  else if c = '\\' then "\\\\"
  else if c = '\n' then "\\n"
  else if c = '\r' then "\\r"
  else if c = '\t' then "\\t"
  else if c.toNat < 32 then
    "\\u00" ++ String.singleton (hexDigit (c.toNat / 16)) ++ String.singleton (hexDigit (c.toNat % 16))
  else String.singleton c

/-- Rendering of a JSON string literal with escaping. -/
def renderString (s : String) : String :=
  "\"" ++ String.join (s.data.map escChar) ++ "\""

mutual
/-- Compact serialization of a JSON value, modelling Value::to_string(). -/
def Json.render : Json → String
  | .null => "null"
  | .bool true => "true"
  | .bool false => "false"
  | .num n => toString n
  | .str s => renderString s
  | .arr xs => "[" ++ Json.renderArr xs ++ "]"
  | .obj kvs => "\x7b" ++ Json.renderObj kvs ++ "\x7d"
/-- Comma-separated serialization of an array body. -/
def Json.renderArr : List Json → String
  | [] => ""
  | [x] => Json.render x
  | x :: y :: xs => Json.render x ++ "," ++ Json.renderArr (y :: xs)
/-- Comma-separated serialization of an object body. -/
def Json.renderObj : List (String × Json) → String
  | [] => ""
  | [(k, v)] => renderString k ++ ":" ++ Json.render v
  | (k, v) :: y :: xs => renderString k ++ ":" ++ Json.render v ++ "," ++ Json.renderObj (y :: xs)
end

/-- Field lookup in a JSON object, first binding wins. -/
def jLookup (kvs : List (String × Json)) (k : String) : Option Json :=
  kvs.lookup k

-- ─── String helpers (kernel-computable, char-list based) ───

/-- Boolean test that p is a leading substring of s (Rust str::starts_with). -/
def strStartsWith (s p : String) : Bool :=
  p.data.isPrefixOf s.data

/-- Boolean test that p is a trailing substring of s (Rust str::ends_with). -/
def strEndsWith (s p : String) : Bool :=
  p.data.isSuffixOf s.data

/-- Removal of the last n characters of s. -/
def strDropRight (s : String) (n : Nat) : String :=
  ⟨s.data.take (s.data.length - n)⟩

/-- Removal of the first n characters of s. -/
def strDrop (s : String) (n : Nat) : String :=
  ⟨s.data.drop n⟩

/-- ASCII lowercase of one character, the fragment of Unicode lowercasing
exercised by provider hints. -/
def lowerChar (c : Char) : Char :=
  if 'A' ≤ c ∧ c ≤ 'Z' then Char.ofNat (c.toNat + 32) else c

/-- ASCII lowercase of a string (Rust str::to_lowercase on ASCII input). -/
def strToLower (s : String) : String :=
  ⟨s.data.map lowerChar⟩

/-- Lexicographic order on char lists, mirroring byte order on UTF-8 names. -/
def charListLe : List Char → List Char → Bool
  | [], _ => true
  | _ :: _, [] => false
  | a :: as, b :: bs => if a < b then true else if b < a then false else charListLe as bs

/-- Lexicographic order on strings used by the name sorts. -/
def strLe (a b : String) : Bool :=
  charListLe a.data b.data

/-- Stable insertion of an element into a list already sorted by le: the new
element goes before the first existing element it does not strictly follow. -/
def insertLe (le : α → α → Bool) (a : α) : List α → List α
  | [] => [a]
  | b :: bs => if le a b then a :: b :: bs else b :: insertLe le a bs

/-- Stable sort by le, modelling Rust's stable slice::sort_by_key. -/
def sortLe (le : α → α → Bool) : List α → List α
  | [] => []
  | a :: as => insertLe le a (sortLe le as)

/-- Extension of a file name under Rust Path::extension semantics: the text
after the last dot of the tail of the name, none when the tail has no dot. -/
def extAux : List Char → Option (List Char)
  | [] => none
  | c :: cs =>
    match extAux cs with
    | some e => some e
    | none => if c = '.' then some cs else none

/-- File-name extension (Rust Path::extension on a bare file name). -/
def fileExtension (name : String) : Option String :=
  match name.data with
  | [] => none
  | _ :: cs => (extAux cs).map (fun e => ⟨e⟩)

-- ─── Physical line model ───

/-- Outcome of reading one physical line of a JSONL file: blank or
whitespace-only text, non-blank text that is not valid JSON syntax (with the
syntax error text), or a successfully parsed JSON value. -/
inductive PLine where
  | blank
  | notJson (e : String)
  | json (j : Json)

/-- Test whether a physical line is blank (line.trim().is_empty()). -/
def PLine.isBlank : PLine → Bool
  | .blank => true
  | _ => false

-- ─── Conversation message types (src/types.rs) ───

/-- Shared envelope fields of Claude conversation records (BaseFields). -/
structure BaseFields where
  uuid : Option String
  parent_uuid : Option String
  timestamp : Option String
  session_id : Option String
  cwd : Option String
  version : Option String
  slug : Option String
  git_branch : Option String

/-- Content block of an assistant message (ContentBlock). -/
inductive ContentBlock where
  | text (text : String)
  | thinking
  | toolUse (id : Option String) (name : Option String) (input : Option Json)
  | toolResult

/-- Body of a user message (UserMessageContent). -/
structure UserMessageContent where
  content : Option Json

/-- User conversation record (UserMessage). -/
structure UserMessage where
  base : BaseFields
  message : Option UserMessageContent

/-- Token usage block of an assistant message (UsageInfo). -/
structure UsageInfo where
  input_tokens : Option Int
  output_tokens : Option Int
  cache_creation_input_tokens : Option Int
  cache_read_input_tokens : Option Int

/-- Body of an assistant message (AssistantMessageContent). -/
structure AssistantMessageContent where
  model : Option String
  content : Option (List ContentBlock)
  stop_reason : Option String
  usage : Option UsageInfo

/-- Assistant conversation record (AssistantMessage). -/
structure AssistantMessage where
  base : BaseFields
  message : Option AssistantMessageContent

/-- System conversation record (SystemMessage). -/
structure SystemMessage where
  base : BaseFields
  content : Option Json

/-- Queue-operation conversation record (QueueOperationMessage). -/
structure QueueOperationMessage where
  timestamp : Option String
  session_id : Option String
  content : Option String

/-- Summary conversation record (SummaryMessage). -/
structure SummaryMessage where
  summary : Option String

/-- Tagged union of Claude conversation records (ConversationMessage,
serde tag "type"). -/
inductive ConversationMessage where
  | user (u : UserMessage)
  | assistant (a : AssistantMessage)
  | system (s : SystemMessage)
  | fileHistorySnapshot
  | queueOperation (q : QueueOperationMessage)
  | summary (s : SummaryMessage)

-- ─── Serde-style decoders from Json ───

/-- Decode of an optional string field: missing or null gives none, a string
gives some, any other value is a type error (serde Option of String). -/
def getStrOpt (kvs : List (String × Json)) (k : String) : Except String (Option String) :=
  match jLookup kvs k with
  | none => .ok none
  | some .null => .ok none
  | some (.str s) => .ok (some s)
  | some _ => .error ("invalid type for field " ++ k)

/-- Decode of an optional integer field (serde Option of i64). -/
def getIntOpt (kvs : List (String × Json)) (k : String) : Except String (Option Int) :=
  match jLookup kvs k with
  | none => .ok none
  | some .null => .ok none
  | some (.num n) => .ok (some n)
  | some _ => .error ("invalid type for field " ++ k)

/-- Decode of an optional opaque JSON field (serde Option of Value): null and
missing give none, anything else is kept as is. -/
def getValOpt (kvs : List (String × Json)) (k : String) : Except String (Option Json) :=
  match jLookup kvs k with
  | none => .ok none
  | some .null => .ok none
  | some v => .ok (some v)

/-- Decode of the flattened BaseFields from the record object. -/
def decodeBaseFields (kvs : List (String × Json)) : Except String BaseFields := do
  let uuid ← getStrOpt kvs "uuid"
  let parent_uuid ← getStrOpt kvs "parentUuid"
  let timestamp ← getStrOpt kvs "timestamp"
  let session_id ← getStrOpt kvs "sessionId"
  let cwd ← getStrOpt kvs "cwd"
  let version ← getStrOpt kvs "version"
  let slug ← getStrOpt kvs "slug"
  let git_branch ← getStrOpt kvs "gitBranch"
  .ok ⟨uuid, parent_uuid, timestamp, session_id, cwd, version, slug, git_branch⟩

/-- Decode of one content block (ContentBlock, serde tag "type"); the text
variant requires a string text field, unknown variants are errors. -/
def decodeContentBlock (j : Json) : Except String ContentBlock :=
  match j with
  | .obj kvs =>
    match jLookup kvs "type" with
    | some (.str t) =>
      if t = "text" then
        match jLookup kvs "text" with
        | some (.str s) => .ok (.text s)
        | some _ => .error "invalid type for field text"
        | none => .error "missing field text"
      else if t = "thinking" then .ok .thinking
      else if t = "tool_use" then do
        let id ← getStrOpt kvs "id"
        let name ← getStrOpt kvs "name"
        let input ← getValOpt kvs "input"
        .ok (.toolUse id name input)
      else if t = "tool_result" then .ok .toolResult
      else .error ("unknown variant " ++ t)
    | some _ => .error "invalid type for tag"
    | none => .error "missing field type"
  | _ => .error "invalid type: expected object"

/-- Decode of a list of content blocks; the first failure fails the list. -/
def decodeContentBlocks : List Json → Except String (List ContentBlock)
  | [] => .ok []
  | j :: js => do
    let b ← decodeContentBlock j
    let bs ← decodeContentBlocks js
    .ok (b :: bs)

/-- Decode of the usage block (UsageInfo). -/
def decodeUsage (j : Json) : Except String UsageInfo :=
  match j with
  | .obj kvs => do
    let it ← getIntOpt kvs "input_tokens"
    let ot ← getIntOpt kvs "output_tokens"
    let cc ← getIntOpt kvs "cache_creation_input_tokens"
    let cr ← getIntOpt kvs "cache_read_input_tokens"
    .ok ⟨it, ot, cc, cr⟩
  | _ => .error "invalid type: expected object"

/-- Decode of the assistant message body (AssistantMessageContent): content
must be an array of typed blocks when present. -/
def decodeAssistantContent (j : Json) : Except String AssistantMessageContent :=
  match j with
  | .obj kvs => do
    let model ← getStrOpt kvs "model"
    let content ←
      match jLookup kvs "content" with
      | none => Except.ok none
      | some .null => Except.ok none
      | some (.arr xs) => (decodeContentBlocks xs).map some
      | some _ => Except.error "invalid type: expected a sequence"
    let stop_reason ← getStrOpt kvs "stop_reason"
    let usage ←
      match jLookup kvs "usage" with
      | none => Except.ok none
      | some .null => Except.ok none
      | some u => (decodeUsage u).map some
    .ok ⟨model, content, stop_reason, usage⟩
  | _ => .error "invalid type: expected object"

/-- Decode of the user message body (UserMessageContent): content is kept as
an opaque JSON value. -/
def decodeUserContent (j : Json) : Except String UserMessageContent :=
  match j with
  | .obj kvs => do
    let content ← getValOpt kvs "content"
    .ok ⟨content⟩
  | _ => .error "invalid type: expected object"

/-- Decode of one conversation record (ConversationMessage): dispatch on the
string tag "type"; the six recognized tags map to their variants and any
other tag is an unknown-variant error, as serde produces for a closed
internally tagged enum. -/
def decodeConversationMessage (j : Json) : Except String ConversationMessage :=
  match j with
  | .obj kvs =>
    match jLookup kvs "type" with
    | some (.str t) =>
      if t = "user" then do
        let base ← decodeBaseFields kvs
        let msg ←
          match jLookup kvs "message" with
          | none => Except.ok none
          | some .null => Except.ok none
          | some m => (decodeUserContent m).map some
        .ok (.user ⟨base, msg⟩)
      else if t = "assistant" then do
        let base ← decodeBaseFields kvs
        let msg ←
          match jLookup kvs "message" with
          | none => Except.ok none
          | some .null => Except.ok none
          | some m => (decodeAssistantContent m).map some
        .ok (.assistant ⟨base, msg⟩)
      else if t = "system" then do
        let base ← decodeBaseFields kvs
        let content ← getValOpt kvs "content"
        .ok (.system ⟨base, content⟩)
      else if t = "file-history-snapshot" then .ok .fileHistorySnapshot
      else if t = "queue-operation" then do
        let timestamp ← getStrOpt kvs "timestamp"
        let session_id ← getStrOpt kvs "sessionId"
        let content ← getStrOpt kvs "content"
        .ok (.queueOperation ⟨timestamp, session_id, content⟩)
      else if t = "summary" then do
        let summary ← getStrOpt kvs "summary"
        .ok (.summary ⟨summary⟩)
      else .error ("unknown variant " ++ t)
    | some _ => .error "invalid type for tag"
    | none => .error "missing field type"
  | _ => .error "invalid type: expected object"

-- ─── utils.rs functions ───

/-- Replacement of every dash by a slash (str::replace with a char pattern). -/
def replaceDashes (s : String) : String :=
  ⟨s.data.map (fun c => if c = '-' then '/' else c)⟩

/-- Decode of an encoded project directory name (decode_project_path):
a leading dash becomes a leading slash, every dash becomes a slash. -/
def decode_project_path (encoded : String) : String :=
  if strStartsWith encoded "-" then "/" ++ replaceDashes (strDrop encoded 1)
  else replaceDashes encoded

/-- Session id derived from a conversation file name
(extract_session_id_from_filename): the name with a trailing ".jsonl"
stripped when present. -/
def extract_session_id_from_filename (filename : String) : String :=
  if strEndsWith filename ".jsonl" then strDropRight filename 6 else filename

/-- Text attribute of a JSON value in the sense of Value::get("text") plus
as_str: some text exactly when the value is an object whose text field is a
string. -/
def textAttr (item : Json) : Option String :=
  match item with
  | .obj kvs =>
    match jLookup kvs "text" with
    | some (.str t) => some t
    | _ => none
  | _ => none

/-- Extraction of text content from an opaque JSON value
(extract_text_content): a string is used verbatim, an array is filtered to
items with a string text attribute and those joined with newlines, any other
value is serialized. -/
def extract_text_content (v : Json) : String :=
  match v with
  | .str s => s
  | .arr items => String.intercalate "\n" (items.filterMap textAttr)
  | _ => Json.render v

-- ─── Conversation row and projection (src/conversations.rs) ───

/-- Flattened conversation row (ConversationRow).  The line number is the
1-based physical line counter (an i64 in the code, never negative). -/
structure ConversationRow where
  session_id : String
  project_path : String
  project_dir : String
  file_name : String
  is_agent : Bool
  line_number : Nat
  message_type : String
  uuid : Option String
  parent_uuid : Option String
  timestamp : Option String
  message_role : Option String
  message_content : Option String
  model : Option String
  tool_name : Option String
  tool_use_id : Option String
  tool_input : Option String
  input_tokens : Option Int
  output_tokens : Option Int
  cache_creation_tokens : Option Int
  cache_read_tokens : Option Int
  slug : Option String
  git_branch : Option String
  cwd : Option String
  version : Option String
  stop_reason : Option String
  deriving DecidableEq

/-- Selection of the tool triple from one content block: the name, call id
and serialized arguments of a tool_use block, nothing for other blocks. -/
def toolTriple : ContentBlock → Option (Option String × Option String × Option String)
  | .toolUse id name input => some (name, id, input.map Json.render)
  | _ => none

/-- Text of a text-typed content block, nothing for other blocks. -/
def textOfBlock : ContentBlock → Option String
  | .text t => some t
  | _ => none

/-- Projection of one decoded conversation record to a row
(ReadConversationsVTab::message_to_row). -/
def message_to_row (msg : ConversationMessage) (project_dir : String)
    (file_name : String) (is_agent : Bool) (file_session_id : String)
    (line_number : Nat) : ConversationRow :=
  let fallback_project_path := decode_project_path project_dir
  match msg with
  | .user u =>
    { session_id := u.base.session_id.getD file_session_id
      project_path := u.base.cwd.getD fallback_project_path
      project_dir := project_dir
      file_name := file_name
      is_agent := is_agent
      line_number := line_number
      message_type := "user"
      uuid := u.base.uuid
      parent_uuid := u.base.parent_uuid
      timestamp := u.base.timestamp
      message_role := some "user"
      message_content := (u.message.bind (fun m => m.content)).map extract_text_content
      model := none
      tool_name := none
      tool_use_id := none
      tool_input := none
      input_tokens := none
      output_tokens := none
      cache_creation_tokens := none
      cache_read_tokens := none
      slug := u.base.slug
      git_branch := u.base.git_branch
      cwd := u.base.cwd
      version := u.base.version
      stop_reason := none }
  | .assistant a =>
    let tool_info := (a.message.bind (fun m => m.content)).bind
      (fun blocks => blocks.findSome? toolTriple)
    { session_id := a.base.session_id.getD file_session_id
      project_path := a.base.cwd.getD fallback_project_path
      project_dir := project_dir
      file_name := file_name
      is_agent := is_agent
      line_number := line_number
      message_type := "assistant"
      uuid := a.base.uuid
      parent_uuid := a.base.parent_uuid
      timestamp := a.base.timestamp
      message_role := some "assistant"
      message_content := (a.message.bind (fun m => m.content)).map
        (fun blocks => String.intercalate "\n" (blocks.filterMap textOfBlock))
      model := a.message.bind (fun m => m.model)
      tool_name := tool_info.bind (fun t => t.1)
      tool_use_id := tool_info.bind (fun t => t.2.1)
      tool_input := tool_info.bind (fun t => t.2.2)
      input_tokens := (a.message.bind (fun m => m.usage)).bind (fun u => u.input_tokens)
      output_tokens := (a.message.bind (fun m => m.usage)).bind (fun u => u.output_tokens)
      cache_creation_tokens := (a.message.bind (fun m => m.usage)).bind
        (fun u => u.cache_creation_input_tokens)
      cache_read_tokens := (a.message.bind (fun m => m.usage)).bind
        (fun u => u.cache_read_input_tokens)
      slug := a.base.slug
      git_branch := a.base.git_branch
      cwd := a.base.cwd
      version := a.base.version
      stop_reason := a.message.bind (fun m => m.stop_reason) }
  | .system s =>
    { session_id := s.base.session_id.getD file_session_id
      project_path := s.base.cwd.getD fallback_project_path
      project_dir := project_dir
      file_name := file_name
      is_agent := is_agent
      line_number := line_number
      message_type := "system"
      uuid := s.base.uuid
      parent_uuid := s.base.parent_uuid
      timestamp := s.base.timestamp
      message_role := none
      message_content := s.content.map extract_text_content
      model := none
      tool_name := none
      tool_use_id := none
      tool_input := none
      input_tokens := none
      output_tokens := none
      cache_creation_tokens := none
      cache_read_tokens := none
      slug := s.base.slug
      git_branch := s.base.git_branch
      cwd := s.base.cwd
      version := s.base.version
      stop_reason := none }
  | .summary s =>
    { session_id := file_session_id
      project_path := fallback_project_path
      project_dir := project_dir
      file_name := file_name
      is_agent := is_agent
      line_number := line_number
      message_type := "summary"
      uuid := none
      parent_uuid := none
      timestamp := none
      message_role := none
      message_content := s.summary
      model := none
      tool_name := none
      tool_use_id := none
      tool_input := none
      input_tokens := none
      output_tokens := none
      cache_creation_tokens := none
      cache_read_tokens := none
      slug := none
      git_branch := none
      cwd := none
      version := none
      stop_reason := none }
  | .fileHistorySnapshot =>
    { session_id := file_session_id
      project_path := fallback_project_path
      project_dir := project_dir
      file_name := file_name
      is_agent := is_agent
      line_number := line_number
      message_type := "file-history-snapshot"
      uuid := none
      parent_uuid := none
      timestamp := none
      message_role := none
      message_content := none
      model := none
      tool_name := none
      tool_use_id := none
      tool_input := none
      input_tokens := none
      output_tokens := none
      cache_creation_tokens := none
      cache_read_tokens := none
      slug := none
      git_branch := none
      cwd := none
      version := none
      stop_reason := none }
  | .queueOperation q =>
    { session_id := q.session_id.getD file_session_id
      project_path := fallback_project_path
      project_dir := project_dir
      file_name := file_name
      is_agent := is_agent
      line_number := line_number
      message_type := "queue-operation"
      uuid := none
      parent_uuid := none
      timestamp := q.timestamp
      message_role := none
      message_content := q.content
      model := none
      tool_name := none
      tool_use_id := none
      tool_input := none
      input_tokens := none
      output_tokens := none
      cache_creation_tokens := none
      cache_read_tokens := none
      slug := none
      git_branch := none
      cwd := none
      version := none
      stop_reason := none }

/-- Sentinel row for a line that failed to decode (the Err branch of
load_rows): message type _parse_error, content carrying the error text. -/
def parseErrorRow (project_dir file_name : String) (is_agent : Bool)
    (file_session_id : String) (line_number : Nat) (e : String) : ConversationRow :=
  { session_id := file_session_id
    project_path := decode_project_path project_dir
    project_dir := project_dir
    file_name := file_name
    is_agent := is_agent
    line_number := line_number
    message_type := "_parse_error"
    uuid := none
    parent_uuid := none
    timestamp := none
    message_role := none
    message_content := some ("Parse error: " ++ e)
    model := none
    tool_name := none
    tool_use_id := none
    tool_input := none
    input_tokens := none
    output_tokens := none
    cache_creation_tokens := none
    cache_read_tokens := none
    slug := none
    git_branch := none
    cwd := none
    version := none
    stop_reason := none }

/-- Rows contributed by one physical line: none for a blank line, a sentinel
row for failed JSON syntax or a failed record decode, the projected row for
a decoded record. -/
def rowsOfLine (project_dir file_name : String) (is_agent : Bool)
    (file_session_id : String) (line_number : Nat) : PLine → List ConversationRow
  | .blank => []
  | .notJson e => [parseErrorRow project_dir file_name is_agent file_session_id line_number e]
  | .json j =>
    match decodeConversationMessage j with
    | .ok msg => [message_to_row msg project_dir file_name is_agent file_session_id line_number]
    | .error e => [parseErrorRow project_dir file_name is_agent file_session_id line_number e]

/-- Per-file line loop of load_rows: n is the number of physical lines
already consumed, so the next line gets number n + 1. -/
def processFileAux (project_dir file_name : String) (is_agent : Bool)
    (file_session_id : String) (n : Nat) : List PLine → List ConversationRow
  | [] => []
  | l :: ls =>
    rowsOfLine project_dir file_name is_agent file_session_id (n + 1) l
      ++ processFileAux project_dir file_name is_agent file_session_id (n + 1) ls

/-- Rows of one conversation file before the backfill pass. -/
def processFile (project_dir file_name : String) (is_agent : Bool)
    (ls : List PLine) : List ConversationRow :=
  processFileAux project_dir file_name is_agent
    (extract_session_id_from_filename file_name) 0 ls

/-- Backfill pass of load_rows over one file's rows: the first present cwd
value of the file, when any, replaces the project path of every row of the
file whose project path equals the decoded fallback. -/
def backfillFile (project_dir : String) (rows : List ConversationRow) :
    List ConversationRow :=
  match rows.findSome? (fun r => r.cwd) with
  | none => rows
  | some c =>
    let fallback := decode_project_path project_dir
    rows.map (fun r =>
      if r.project_path = fallback then { r with project_path := c } else r)

-- ─── File discovery model (utils.rs discover_conversation_files) ───

/-- Entry of a project directory in the file-system model: a file name and
its readable content, none when opening the file fails. -/
structure FileEnt where
  name : String
  lines : Option (List PLine)

/-- Model of the projects tree: the sub-directories of projects/ in
read_dir order, each with its directory entries in read_dir order. -/
structure ProjectsFS where
  dirs : List (String × List FileEnt)

/-- Discovered conversation file: encoded project directory name, agent
flag, file name, and the file content behind the returned path. -/
structure DiscoveredFile where
  projectDir : String
  isAgent : Bool
  fileName : String
  lines : Option (List PLine)

/-- Discovery of conversation files (discover_conversation_files): project
sub-directories sorted by name, then per directory the entries with the
jsonl extension sorted by name, each classified as agent-owned exactly when
its name starts with "agent-". -/
def discover_conversation_files (fs : ProjectsFS) : List DiscoveredFile :=
  (sortLe (fun a b => strLe a.1 b.1) fs.dirs).flatMap (fun d =>
    (sortLe (fun a b => strLe a.name b.name)
        (d.2.filter (fun f => fileExtension f.name = some "jsonl"))).map (fun f =>
      ⟨d.1, strStartsWith f.name "agent-", f.name, f.lines⟩))

/-- Rows of one discovered file, including the backfill pass; a file whose
open fails contributes nothing. -/
def loadFile (d : DiscoveredFile) : List ConversationRow :=
  match d.lines with
  | none => []
  | some ls => backfillFile d.projectDir (processFile d.projectDir d.fileName d.isAgent ls)

/-- Whole conversations scan (ReadConversationsVTab::load_rows) over the
file-system model. -/
def conversationsLoadRows (fs : ProjectsFS) : List ConversationRow :=
  (discover_conversation_files fs).flatMap loadFile

-- ─── Batch cursor / pagination (src/vtab.rs GenericVTab::func) ───

/-- One pull of the batch cursor (GenericVTab::func): at or past the end the
pull returns no rows and leaves the offset, otherwise it returns a page of
min 2048 (rows remaining) rows starting at the offset and advances the
offset by the page size. -/
def vtabFunc (rows : List α) (offset : Nat) : List α × Nat :=
  if rows.length ≤ offset then ([], offset)
  else
    let batch := min 2048 (rows.length - offset)
    ((rows.drop offset).take batch, offset + batch)

-- ─── Provider detection (src/detect.rs) ───

/-- Supported data providers (Provider). -/
inductive Provider where
  | claude
  | copilot
  | unknown
  deriving DecidableEq

/-- Content of a JSON document file, when readable: raw text failing JSON
syntax, or a parsed value. -/
inductive FileJson where
  | notJson (e : String)
  | json (j : Json)

/-- Model of a candidate root directory: the two directory-shape probes used
by detection and the two history sources used by the history table. -/
structure RootDir where
  hasProjectsDir : Bool
  hasSessionStateDir : Bool
  historyLines : Option (List PLine)
  copilotHistoryFile : Option FileJson

/-- Auto-detection of the provider from directory shape (detect_provider):
a projects subdirectory means Claude, else a session-state subdirectory
means Copilot, else unknown. -/
def detect_provider (d : RootDir) : Provider :=
  if d.hasProjectsDir then .claude
  else if d.hasSessionStateDir then .copilot
  else .unknown

/-- Parse of an explicit source hint (parse_source), lowercasing first. -/
def parse_source (source : String) : Provider :=
  if strToLower source = "claude" then .claude
  else if strToLower source = "copilot" then .copilot
  else .unknown

/-- Provider resolution (resolve_provider): a hint naming a known provider
wins, otherwise directory-shape detection decides. -/
def resolve_provider (d : RootDir) (source : Option String) : Provider :=
  match source with
  | some s => if parse_source s ≠ .unknown then parse_source s else detect_provider d
  | none => detect_provider d

-- ─── History table (src/history.rs) ───

/-- History row (HistoryRow). -/
structure HistoryRow where
  source : String
  line_number : Nat
  timestamp_ms : Option Int
  project : Option String
  session_id : Option String
  display : Option String
  pasted_contents : Option String
  deriving DecidableEq

/-- Decode of one Claude history record (HistoryEntry). -/
def decodeHistoryEntry (j : Json) :
    Except String (Option String × Option Json × Option Int × Option String × Option String) :=
  match j with
  | .obj kvs => do
    let display ← getStrOpt kvs "display"
    let pasted ← getValOpt kvs "pastedContents"
    let timestamp ← getIntOpt kvs "timestamp"
    let project ← getStrOpt kvs "project"
    let session_id ← getStrOpt kvs "sessionId"
    .ok (display, pasted, timestamp, project, session_id)
  | _ => .error "invalid type: expected object"

/-- Rows contributed by one physical line of history.jsonl. -/
def historyRowOfLine (n : Nat) : PLine → List HistoryRow
  | .blank => []
  | .notJson e =>
    [{ source := "claude", line_number := n, timestamp_ms := none, project := none
       session_id := none, display := some ("Parse error: " ++ e), pasted_contents := none }]
  | .json j =>
    match decodeHistoryEntry j with
    | .ok (display, pasted, timestamp, project, session_id) =>
      [{ source := "claude", line_number := n, timestamp_ms := timestamp
         project := project, session_id := session_id, display := display
         pasted_contents := pasted.map Json.render }]
    | .error e =>
      [{ source := "claude", line_number := n, timestamp_ms := none, project := none
         session_id := none, display := some ("Parse error: " ++ e), pasted_contents := none }]

/-- Line loop of History::load_claude_rows with the enumerate counter. -/
def claudeHistoryAux (n : Nat) : List PLine → List HistoryRow
  | [] => []
  | l :: ls => historyRowOfLine (n + 1) l ++ claudeHistoryAux (n + 1) ls

/-- Claude history rows (History::load_claude_rows): a missing file gives no
rows. -/
def load_claude_rows (d : RootDir) : List HistoryRow :=
  match d.historyLines with
  | none => []
  | some ls => claudeHistoryAux 0 ls

/-- Decode of the Copilot command history document
(CopilotCommandHistory): the commandHistory array of strings, defaulting to
empty when the field is missing. -/
def decodeCopilotCommandHistory (j : Json) : Except String (List String) :=
  match j with
  | .obj kvs =>
    match jLookup kvs "commandHistory" with
    | none => .ok []
    | some (.arr xs) =>
      xs.foldr (fun x acc => do
        match x with
        | .str s => do
          let rest ← acc
          .ok (s :: rest)
        | _ => .error "invalid type: expected a string") (.ok [])
    | some _ => .error "invalid type: expected a sequence"
  | _ => .error "invalid type: expected object"

/-- Copilot history rows (History::load_copilot_rows): unreadable or
undecodable documents give no rows. -/
def load_copilot_rows (d : RootDir) : List HistoryRow :=
  match d.copilotHistoryFile with
  | none => []
  | some (.notJson _) => []
  | some (.json j) =>
    match decodeCopilotCommandHistory j with
    | .error _ => []
    | .ok cmds =>
      (cmds.enum).map (fun p =>
        { source := "copilot", line_number := p.1 + 1, timestamp_ms := none
          project := none, session_id := none, display := some p.2
          pasted_contents := none })

/-- History table load (History::load_rows): dispatch on the resolved
provider, the unknown provider giving zero rows. -/
def history_load_rows (d : RootDir) (source : Option String) : List HistoryRow :=
  match resolve_provider d source with
  | .claude => load_claude_rows d
  | .copilot => load_copilot_rows d
  | .unknown => []

-- ─── Todos table (src/todos.rs) ───

/-- Todo item (TodoItem). -/
structure TodoItem where
  content : Option String
  status : Option String
  active_form : Option String

/-- Todo row (TodoRow); item_index is an i64 and carries the -1 sentinel. -/
structure TodoRow where
  session_id : String
  agent_id : String
  file_name : String
  item_index : Int
  content : String
  status : String
  active_form : Option String
  deriving DecidableEq

/-- Discovered todo file: ids from the file-name pattern, and the document
content, none when reading the file fails. -/
structure TodoFile where
  session_id : String
  agent_id : String
  file_name : String
  content : Option FileJson

/-- Decode of one todo item (TodoItem via serde). -/
def decodeTodoItem (j : Json) : Except String TodoItem :=
  match j with
  | .obj kvs => do
    let content ← getStrOpt kvs "content"
    let status ← getStrOpt kvs "status"
    let active_form ← getStrOpt kvs "activeForm"
    .ok ⟨content, status, active_form⟩
  | _ => .error "invalid type: expected object"

/-- Decode of a whole todo document as an array of todo items. -/
def decodeTodoItems (j : Json) : Except String (List TodoItem) :=
  match j with
  | .arr xs =>
    xs.foldr (fun x acc => do
      let item ← decodeTodoItem x
      let rest ← acc
      .ok (item :: rest)) (.ok [])
  | _ => .error "invalid type: expected a sequence"

/-- Sentinel todo row for a document that failed to decode: item index -1,
status _parse_error, content carrying the error text. -/
def todoErrorRow (f : TodoFile) (e : String) : TodoRow :=
  { session_id := f.session_id, agent_id := f.agent_id, file_name := f.file_name
    item_index := -1, content := "Parse error: " ++ e, status := "_parse_error"
    active_form := none }

/-- Rows of one discovered todo file (the body of ReadTodosVTab::load_rows):
an unreadable file yields nothing, a document failing to decode yields one
sentinel row, a decoded document yields one row per item in order. -/
def todoFileRows (f : TodoFile) : List TodoRow :=
  match f.content with
  | none => []
  | some (.notJson e) => [todoErrorRow f e]
  | some (.json j) =>
    match decodeTodoItems j with
    | .error e => [todoErrorRow f e]
    | .ok items =>
      (items.enum).map (fun p =>
        { session_id := f.session_id, agent_id := f.agent_id, file_name := f.file_name
          item_index := (p.1 : Int), content := p.2.content.getD ""
          status := p.2.status.getD "", active_form := p.2.active_form })

/-- Todos table load (ReadTodosVTab::load_rows) over the discovered files. -/
def todosLoadRows (files : List TodoFile) : List TodoRow :=
  files.flatMap todoFileRows

-- ─── Claim-side auxiliary definitions ───

/-- Explicit working-directory field of a record, as the spec reads it: the
cwd envelope field of user, assistant and system records; the other record
kinds carry none. -/
def recordCwd : ConversationMessage → Option String
  | .user u => u.base.cwd
  | .assistant a => a.base.cwd
  | .system s => s.base.cwd
  | _ => none

/-- Decode of an encoded directory token as the spec words it: every dash
becomes a slash, so a leading dash becomes a leading slash. -/
def dashDecode (s : String) : String :=
  ⟨s.data.map (fun c => if c = '-' then '/' else c)⟩

/-- Test for a tool-invocation content block. -/
def isToolUseBlock : ContentBlock → Bool
  | .toolUse _ _ _ => true
  | _ => false

/-- Discovery ordering relation: a comes before b exactly as required by
sorting directories by name and file names within a directory by name. -/
def discoveredBefore (a b : DiscoveredFile) : Prop :=
  (a.projectDir = b.projectDir ∧ strLe a.fileName b.fileName = true)
  ∨ (a.projectDir ≠ b.projectDir ∧ strLe a.projectDir b.projectDir = true)

-- ─── Helper lemmas ───

/-- Page shape of one cursor pull: the page is the slice of min 2048 (rows
remaining) rows at the offset and the new offset advances by the page size. -/
theorem vtabFunc_page {α : Type} (rows : List α) (off : Nat) :
    (vtabFunc rows off).1 = (rows.drop off).take (min 2048 (rows.length - off))
    ∧ (vtabFunc rows off).1.length = min 2048 (rows.length - off)
    ∧ (vtabFunc rows off).2 = off + min 2048 (rows.length - off) := by
  by_cases h : rows.length ≤ off
  · have hz : rows.length - off = 0 := Nat.sub_eq_zero_of_le h
    simp [vtabFunc, h, hz]
  · simp only [vtabFunc, if_neg h]
    refine ⟨trivial, ?_, trivial⟩
    rw [List.length_take, List.length_drop]
    omega

/-- First tool triple found in block order equals the triple of the head of
the tool blocks. -/
theorem findSome?_toolTriple (blocks : List ContentBlock) :
    blocks.findSome? toolTriple = ((blocks.filter isToolUseBlock).head?).bind toolTriple := by
  induction blocks with
  | nil => rfl
  | cons b bs ih =>
    cases b with
    | toolUse id name input => simp [List.findSome?_cons, toolTriple, isToolUseBlock, List.filter]
    | text t => simpa [List.findSome?_cons, toolTriple, isToolUseBlock, List.filter] using ih
    | thinking => simpa [List.findSome?_cons, toolTriple, isToolUseBlock, List.filter] using ih
    | toolResult => simpa [List.findSome?_cons, toolTriple, isToolUseBlock, List.filter] using ih

-- ─── Claim theorems ───

/-- C4: for every assistant message whose content blocks contain a
tool-invocation block, the row's tool name, tool call id, and serialized
tool input come from the first tool-invocation block in block order, later
tool blocks contributing nothing. -/
theorem c4_first_tool_block (a : AssistantMessage) (pd fn sid : String) (ag : Bool)
    (n : Nat) (m : AssistantMessageContent) (blocks : List ContentBlock)
    (tid tname : Option String) (tinput : Option Json)
    (hm : a.message = some m) (hc : m.content = some blocks)
    (hfirst : (blocks.filter isToolUseBlock).head? = some (.toolUse tid tname tinput)) :
    (message_to_row (.assistant a) pd fn ag sid n).tool_name = tname
    ∧ (message_to_row (.assistant a) pd fn ag sid n).tool_use_id = tid
    ∧ (message_to_row (.assistant a) pd fn ag sid n).tool_input = tinput.map Json.render := by
  have h1 : blocks.findSome? toolTriple = some (tname, tid, tinput.map Json.render) := by
    rw [findSome?_toolTriple, hfirst]
    rfl
  refine ⟨?_, ?_, ?_⟩ <;> simp [message_to_row, hm, hc, h1]

/-- Witness for C4: a concrete assistant message with two tool blocks takes
the triple of the first. -/
theorem c4_witness :
    (message_to_row
      (.assistant ⟨⟨none, none, none, none, none, none, none, none⟩,
        some ⟨none, some [.toolUse (some "id1") (some "tool1") (some (.num 1)),
          .toolUse (some "id2") (some "tool2") (some (.num 2))], none, none⟩⟩)
      "-p" "s.jsonl" false "s" 1).tool_name = some "tool1"
    ∧ (message_to_row
      (.assistant ⟨⟨none, none, none, none, none, none, none, none⟩,
        some ⟨none, some [.toolUse (some "id1") (some "tool1") (some (.num 1)),
          .toolUse (some "id2") (some "tool2") (some (.num 2))], none, none⟩⟩)
      "-p" "s.jsonl" false "s" 1).tool_use_id = some "id1"
    ∧ (message_to_row
      (.assistant ⟨⟨none, none, none, none, none, none, none, none⟩,
        some ⟨none, some [.toolUse (some "id1") (some "tool1") (some (.num 1)),
          .toolUse (some "id2") (some "tool2") (some (.num 2))], none, none⟩⟩)
      "-p" "s.jsonl" false "s" 1).tool_input = (some (Json.num 1)).map Json.render :=
  c4_first_tool_block _ "-p" "s.jsonl" "s" false 1 _ _ (some "id1") (some "tool1")
    (some (.num 1)) rfl rfl rfl

/-- Counterexample for C5: on a concrete 5000-row list the offset after the
third pull is 5000 (2048 + 2048 + 904), not 4904 as the claim states. -/
theorem c5_counterexample :
    (vtabFunc (List.replicate 5000 (0 : Nat))
      (vtabFunc (List.replicate 5000 (0 : Nat))
        (vtabFunc (List.replicate 5000 (0 : Nat)) 0).2).2).2 = 5000
    ∧ (5000 : Nat) ≠ 4904 := by
  have hlen : (List.replicate 5000 (0 : Nat)).length = 5000 := List.length_replicate 5000 0
  have h1 := (vtabFunc_page (List.replicate 5000 (0 : Nat)) 0).2.2
  rw [hlen] at h1
  norm_num at h1
  have h2 := (vtabFunc_page (List.replicate 5000 (0 : Nat)) 2048).2.2
  rw [hlen] at h2
  norm_num at h2
  rw [h1] at *
  have h3 := (vtabFunc_page (List.replicate 5000 (0 : Nat)) 4096).2.2
  rw [hlen] at h3
  norm_num at h3
  rw [h2, h3]
  omega

/-- C5 (amended): each pull returns the slice of min 2048 (rows remaining)
rows at the current offset and advances the offset by exactly the number
returned, returning zero rows once the offset has reached the row count;
for a 5000-row result the successive page sizes are 2048, 2048, 904, 0 and
the offset equals 5000 (not 4904) after the third pull. -/
theorem c5_pagination_contract {α : Type} (rows : List α) (off : Nat) :
    ((vtabFunc rows off).1 = (rows.drop off).take (min 2048 (rows.length - off)))
    ∧ ((vtabFunc rows off).1.length = min 2048 (rows.length - off))
    ∧ ((vtabFunc rows off).2 = off + (vtabFunc rows off).1.length)
    ∧ (rows.length ≤ off → (vtabFunc rows off).1 = [])
    ∧ (rows.length = 5000 →
        (vtabFunc rows 0).1.length = 2048
        ∧ (vtabFunc rows (vtabFunc rows 0).2).1.length = 2048
        ∧ (vtabFunc rows (vtabFunc rows (vtabFunc rows 0).2).2).1.length = 904
        ∧ (vtabFunc rows (vtabFunc rows (vtabFunc rows 0).2).2).2 = 5000
        ∧ (vtabFunc rows
            (vtabFunc rows (vtabFunc rows (vtabFunc rows 0).2).2).2).1.length = 0) := by
  obtain ⟨hp, hl, ho⟩ := vtabFunc_page rows off
  refine ⟨hp, hl, by rw [ho, hl], ?_, ?_⟩
  · intro hle
    have hz : rows.length - off = 0 := Nat.sub_eq_zero_of_le hle
    rw [hp, hz]
    simp
  · intro h5
    obtain ⟨_, l0, o0⟩ := vtabFunc_page rows 0
    rw [h5] at l0 o0
    norm_num at l0 o0
    rw [o0]
    obtain ⟨_, l1, o1⟩ := vtabFunc_page rows 2048
    rw [h5] at l1 o1
    norm_num at l1 o1
    rw [o1]
    obtain ⟨_, l2, o2⟩ := vtabFunc_page rows 4096
    rw [h5] at l2 o2
    norm_num at l2 o2
    rw [o2]
    obtain ⟨_, l3, _⟩ := vtabFunc_page rows 5000
    rw [h5] at l3
    norm_num at l3
    exact ⟨l0, l1, l2, rfl, by simp [l3]⟩

/-- Witness for C5: the amended pagination contract evaluated on a concrete
5000-row list. -/
theorem c5_witness :
    (List.replicate 5000 (0 : Nat)).length = 5000
    ∧ ((vtabFunc (List.replicate 5000 (0 : Nat))
        (vtabFunc (List.replicate 5000 (0 : Nat))
          (vtabFunc (List.replicate 5000 (0 : Nat)) 0).2).2).1.length = 904
      ∧ (vtabFunc (List.replicate 5000 (0 : Nat))
        (vtabFunc (List.replicate 5000 (0 : Nat))
          (vtabFunc (List.replicate 5000 (0 : Nat)) 0).2).2).2 = 5000) :=
  ⟨List.length_replicate 5000 0,
    let h := (c5_pagination_contract (List.replicate 5000 (0 : Nat)) 0).2.2.2.2
      (List.length_replicate 5000 0)
    ⟨h.2.2.1, h.2.2.2.1⟩⟩

/-- C6: a hint naming a known provider wins case-insensitively and
unconditionally; otherwise a projects directory means Claude, else a
session-state directory means Copilot, else the unknown sentinel; and a
history table load under the unknown provider produces zero rows. -/
theorem c6_provider_resolution :
    (∀ (d : RootDir) (s : String), parse_source s ≠ Provider.unknown →
      resolve_provider d (some s) = parse_source s)
    ∧ (∀ s t : String, strToLower s = strToLower t → parse_source s = parse_source t)
    ∧ (∀ (d : RootDir) (s : String), parse_source s = Provider.unknown →
      resolve_provider d (some s) = detect_provider d)
    ∧ (∀ d : RootDir, resolve_provider d none = detect_provider d)
    ∧ (∀ d : RootDir,
        (d.hasProjectsDir = true → detect_provider d = Provider.claude)
        ∧ (d.hasProjectsDir = false → d.hasSessionStateDir = true →
            detect_provider d = Provider.copilot)
        ∧ (d.hasProjectsDir = false → d.hasSessionStateDir = false →
            detect_provider d = Provider.unknown))
    ∧ (∀ (d : RootDir) (s : Option String), resolve_provider d s = Provider.unknown →
        history_load_rows d s = []) := by
  refine ⟨?_, ?_, ?_, ?_, ?_, ?_⟩
  · intro d s h
    simp [resolve_provider, h]
  · intro s t h
    simp [parse_source, h]
  · intro d s h
    simp [resolve_provider, h]
  · intro d
    rfl
  · intro d
    exact ⟨fun h1 => by simp [detect_provider, h1],
      fun h1 h2 => by simp [detect_provider, h1, h2],
      fun h1 h2 => by simp [detect_provider, h1, h2]⟩
  · intro d s h
    simp [history_load_rows, h]

/-- Witness for C6: concrete resolutions on an empty root directory with an
explicit capitalized hint and with an unknown hint. -/
theorem c6_witness :
    (parse_source "Claude" ≠ Provider.unknown)
    ∧ resolve_provider ⟨false, false, none, none⟩ (some "Claude") = parse_source "Claude"
    ∧ resolve_provider ⟨false, false, none, none⟩ (some "zzz") = Provider.unknown
    ∧ history_load_rows ⟨false, false, none, none⟩ (some "zzz") = [] :=
  ⟨by decide,
    c6_provider_resolution.1 ⟨false, false, none, none⟩ "Claude" (by decide),
    by decide,
    c6_provider_resolution.2.2.2.2.2 ⟨false, false, none, none⟩ (some "zzz") (by decide)⟩

/-- C7: the projected row's project path equals the record's explicit
working-directory field when present and otherwise the decoded fallback of
the encoded parent-directory name, where decoding replaces every dash with
a slash so that a leading dash decodes to a leading slash. -/
theorem c7_project_path_resolution :
    (∀ (msg : ConversationMessage) (pd fn sid : String) (ag : Bool) (n : Nat),
      (message_to_row msg pd fn ag sid n).project_path
        = (recordCwd msg).getD (decode_project_path pd))
    ∧ (∀ s : String, decode_project_path s = dashDecode s)
    ∧ decode_project_path "-Users-username-project" = "/Users/username/project" := by
  refine ⟨?_, ?_, by decide⟩
  · intro msg pd fn sid ag n
    cases msg with
    | user u => cases u.base.cwd <;> rfl
    | assistant a => cases a.base.cwd <;> rfl
    | system s => cases s.base.cwd <;> rfl
    | fileHistorySnapshot => rfl
    | queueOperation q => rfl
    | summary s => rfl
  · intro s
    obtain ⟨cs⟩ := s
    cases cs with
    | nil => rfl
    | cons c cs =>
      unfold decode_project_path strStartsWith
      by_cases hc : c = '-'
      · subst hc
        have hpre : ("-" : String).data.isPrefixOf ('-' :: cs) = true := by
          simp [List.isPrefixOf]
        rw [hpre]
        simp only [if_true]
        show "/" ++ replaceDashes ⟨cs⟩ = dashDecode ⟨'-' :: cs⟩
        have happ : ("/" : String) ++ (⟨cs.map (fun c => if c = '-' then '/' else c)⟩ : String)
            = ⟨'/' :: cs.map (fun c => if c = '-' then '/' else c)⟩ := rfl
        rw [replaceDashes, happ]
        rfl
      · have hpre : ("-" : String).data.isPrefixOf (c :: cs) = false := by
          simp [List.isPrefixOf]
          intro h
          exact hc h.symm
        rw [hpre]
        simp only [Bool.false_eq_true, if_false]
        show replaceDashes ⟨c :: cs⟩ = dashDecode ⟨c :: cs⟩
        rfl

/-- Projection always stamps the given line number on the row. -/
theorem message_to_row_line_number (msg : ConversationMessage) (pd fn sid : String)
    (ag : Bool) (n : Nat) : (message_to_row msg pd fn ag sid n).line_number = n := by
  cases msg <;> rfl

/-- Every row contributed by a line carries that line's number. -/
theorem rowsOfLine_line_number (pd fn sid : String) (ag : Bool) (n : Nat) (l : PLine) :
    ∀ r ∈ rowsOfLine pd fn ag sid n l, r.line_number = n := by
  intro r hr
  cases l with
  | blank => simp [rowsOfLine] at hr
  | notJson e =>
    simp [rowsOfLine] at hr
    rw [hr]
    rfl
  | json j =>
    cases hdec : decodeConversationMessage j with
    | ok msg =>
      simp [rowsOfLine, hdec] at hr
      rw [hr]
      exact message_to_row_line_number msg pd fn sid ag n
    | error e =>
      simp [rowsOfLine, hdec] at hr
      rw [hr]
      rfl

/-- A line contributes no row when blank and exactly one row otherwise. -/
theorem rowsOfLine_length (pd fn sid : String) (ag : Bool) (n : Nat) (l : PLine) :
    (rowsOfLine pd fn ag sid n l).length = if l.isBlank then 0 else 1 := by
  cases l with
  | blank => rfl
  | notJson e => rfl
  | json j =>
    cases hdec : decodeConversationMessage j <;> simp [rowsOfLine, hdec, PLine.isBlank]

/-- Line numbers of rows produced after consuming n lines stay in the open
interval above n and at most n plus the number of remaining lines. -/
theorem processFileAux_line_bounds (pd fn sid : String) (ag : Bool) :
    ∀ (ls : List PLine) (n : Nat), ∀ r ∈ processFileAux pd fn ag sid n ls,
      n < r.line_number ∧ r.line_number ≤ n + ls.length := by
  intro ls
  induction ls with
  | nil => intro n r hr; simp [processFileAux] at hr
  | cons l ls ih =>
    intro n r hr
    unfold processFileAux at hr
    rw [List.mem_append] at hr
    cases hr with
    | inl h =>
      have := rowsOfLine_line_number pd fn sid ag (n + 1) l r h
      rw [this]
      simp
    | inr h =>
      have := ih (n + 1) r h
      constructor
      · omega
      · simp only [List.length_cons]
        omega

/-- Row count of the file loop equals the number of non-blank lines. -/
theorem processFileAux_length (pd fn sid : String) (ag : Bool) :
    ∀ (ls : List PLine) (n : Nat),
      (processFileAux pd fn ag sid n ls).length
        = (ls.filter (fun l => !l.isBlank)).length := by
  intro ls
  induction ls with
  | nil => intro n; rfl
  | cons l ls ih =>
    intro n
    unfold processFileAux
    rw [List.length_append, rowsOfLine_length, ih (n + 1)]
    cases l with
    | blank => simp [PLine.isBlank, List.filter]
    | notJson e =>
      simp [PLine.isBlank, List.filter]
      omega
    | json j =>
      simp [PLine.isBlank, List.filter]
      omega

/-- Rows selected by a line number are exactly the rows of that line. -/
theorem processFileAux_filter (pd fn sid : String) (ag : Bool) :
    ∀ (ls : List PLine) (n i : Nat) (l : PLine), ls[i]? = some l →
      (processFileAux pd fn ag sid n ls).filter
          (fun r => r.line_number = n + i + 1)
        = rowsOfLine pd fn ag sid (n + i + 1) l := by
  intro ls
  induction ls with
  | nil => intro n i l h; simp at h
  | cons l0 ls ih =>
    intro n i l h
    unfold processFileAux
    rw [List.filter_append]
    cases i with
    | zero =>
      rw [List.getElem?_cons_zero] at h
      have hl : l = l0 := by
        injection h with he
        exact he.symm
      subst hl
      have h1 : (rowsOfLine pd fn ag sid (n + 1) l).filter
          (fun r => r.line_number = n + 0 + 1) = rowsOfLine pd fn ag sid (n + 1) l := by
        apply List.filter_eq_self.mpr
        intro r hr
        have := rowsOfLine_line_number pd fn sid ag (n + 1) l r hr
        simp [this]
      have h2 : (processFileAux pd fn ag sid (n + 1) ls).filter
          (fun r => r.line_number = n + 0 + 1) = [] := by
        rw [List.filter_eq_nil_iff]
        intro r hr
        have := (processFileAux_line_bounds pd fn sid ag ls (n + 1) r hr).1
        simp
        omega
      rw [h1, h2, List.append_nil]
    | succ j =>
      rw [List.getElem?_cons_succ] at h
      have h1 : (rowsOfLine pd fn ag sid (n + 1) l0).filter
          (fun r => r.line_number = n + (j + 1) + 1) = [] := by
        rw [List.filter_eq_nil_iff]
        intro r hr
        have := rowsOfLine_line_number pd fn sid ag (n + 1) l0 r hr
        simp [this]
      have h2 := ih (n + 1) j l h
      rw [h1, List.nil_append]
      have harith : n + (j + 1) + 1 = n + 1 + j + 1 := by omega
      rw [harith]
      exact h2

/-- C2: each non-blank physical line of a file yields exactly one row whose
line number is the 1-based physical position counting blank lines, blank
lines yield no row, a line failing JSON syntax or record decode yields
exactly one _parse_error row whose content carries the failure reason, and
a decoded line yields exactly the projected row; hence a file with one
malformed line among N valid lines yields N normal rows plus one error row. -/
theorem c2_line_accounting (pd fn : String) (ag : Bool) (ls : List PLine) :
    (processFile pd fn ag ls).length = (ls.filter (fun l => !l.isBlank)).length
    ∧ (∀ (i : Nat) (l : PLine), ls[i]? = some l →
        (processFile pd fn ag ls).filter (fun r => r.line_number = i + 1)
          = rowsOfLine pd fn ag (extract_session_id_from_filename fn) (i + 1) l)
    ∧ (∀ n, rowsOfLine pd fn ag (extract_session_id_from_filename fn) n .blank = [])
    ∧ (∀ n e,
        (rowsOfLine pd fn ag (extract_session_id_from_filename fn) n (.notJson e)).map
          (fun r => (r.line_number, r.message_type, r.message_content))
        = [(n, "_parse_error", some ("Parse error: " ++ e))])
    ∧ (∀ n j e, decodeConversationMessage j = .error e →
        (rowsOfLine pd fn ag (extract_session_id_from_filename fn) n (.json j)).map
          (fun r => (r.line_number, r.message_type, r.message_content))
        = [(n, "_parse_error", some ("Parse error: " ++ e))])
    ∧ (∀ n j msg, decodeConversationMessage j = .ok msg →
        rowsOfLine pd fn ag (extract_session_id_from_filename fn) n (.json j)
          = [message_to_row msg pd fn ag (extract_session_id_from_filename fn) n]) := by
  refine ⟨processFileAux_length pd fn _ ag ls 0, ?_, ?_, ?_, ?_, ?_⟩
  · intro i l h
    have := processFileAux_filter pd fn (extract_session_id_from_filename fn) ag ls 0 i l h
    simpa using this
  · intro n
    rfl
  · intro n e
    rfl
  · intro n j e h
    simp [rowsOfLine, h, parseErrorRow]
  · intro n j msg h
    simp [rowsOfLine, h]

/-- Witness for C2: a concrete three-line file with one malformed middle
line yields three rows, and the row selected by line number 2 is the
sentinel row of the malformed line. -/
theorem c2_witness :
    (processFile "-p" "f.jsonl" false
        [.json (.obj [("type", .str "summary"), ("summary", .str "s")]),
         .notJson "bad token",
         .json (.obj [("type", .str "file-history-snapshot")])]).length
      = 3
    ∧ (processFile "-p" "f.jsonl" false
        [.json (.obj [("type", .str "summary"), ("summary", .str "s")]),
         .notJson "bad token",
         .json (.obj [("type", .str "file-history-snapshot")])]).filter
          (fun r => r.line_number = 1 + 1)
      = rowsOfLine "-p" "f.jsonl" false (extract_session_id_from_filename "f.jsonl")
          (1 + 1) (.notJson "bad token") :=
  ⟨by
    rw [(c2_line_accounting "-p" "f.jsonl" false _).1]
    decide,
   (c2_line_accounting "-p" "f.jsonl" false _).2.1 1 (.notJson "bad token") rfl⟩

/-- Counterexample for C1: in a file whose first cwd-bearing row declares the
empty working directory and a later row declares the non-empty "/x", the
backfill writes the empty first-present value, not the first non-empty one:
the summary row (third row, provisional fallback "/p") ends with project
path "" instead of the "/x" the claim requires. -/
theorem c1_counterexample :
    ((backfillFile "-p" (processFile "-p" "f.jsonl" false
        [.json (.obj [("type", .str "user"), ("cwd", .str "")]),
         .json (.obj [("type", .str "user"), ("cwd", .str "/x")]),
         .json (.obj [("type", .str "summary")])])).map (fun r => r.project_path))
      = ["", "/x", ""]
    ∧ ("" : String) ≠ "/x" :=
  ⟨by decide, by decide⟩

/-- C1 (amended): after a file's backfill pass, if any row of the file
carried a present working-directory value (possibly the empty string), the
first such value in row order replaces the project path of every row whose
project path equals the decoded fallback of the encoded parent-directory
name; rows whose project path differs from the fallback are unchanged, and
a row can end with the provisional fallback only when the backfilled value
itself equals the fallback. -/
theorem c1_backfill_first_present_cwd (pd fn : String) (ag : Bool) (ls : List PLine)
    (c : String)
    (h : (processFile pd fn ag ls).findSome? (fun r => r.cwd) = some c) :
    (∀ (i : Nat) (r : ConversationRow), (processFile pd fn ag ls)[i]? = some r →
        r.project_path = decode_project_path pd →
        (backfillFile pd (processFile pd fn ag ls))[i]?
          = some { r with project_path := c })
    ∧ (∀ (i : Nat) (r : ConversationRow), (processFile pd fn ag ls)[i]? = some r →
        r.project_path ≠ decode_project_path pd →
        (backfillFile pd (processFile pd fn ag ls))[i]? = some r)
    ∧ (∀ r ∈ backfillFile pd (processFile pd fn ag ls),
        r.project_path = decode_project_path pd → c = decode_project_path pd) := by
  have hpost : backfillFile pd (processFile pd fn ag ls)
      = (processFile pd fn ag ls).map (fun r =>
          if r.project_path = decode_project_path pd
          then { r with project_path := c } else r) := by
    simp [backfillFile, h]
  refine ⟨?_, ?_, ?_⟩
  · intro i r hi hfb
    rw [hpost, List.getElem?_map, hi]
    simp [hfb]
  · intro i r hi hfb
    rw [hpost, List.getElem?_map, hi]
    simp [hfb]
  · intro r hr hfb
    rw [hpost] at hr
    rcases List.mem_map.mp hr with ⟨r0, _, heq⟩
    by_cases h0 : r0.project_path = decode_project_path pd
    · rw [if_pos h0] at heq
      rw [← heq] at hfb
      exact hfb
    · rw [if_neg h0] at heq
      rw [← heq] at hfb
      exact absurd hfb h0

/-- Witness for C1: a concrete two-line file whose user row declares cwd
"/w"; the summary row at index 1 starts at the fallback "/p" and ends
backfilled to "/w". -/
theorem c1_witness :
    (backfillFile "-p" (processFile "-p" "f.jsonl" false
        [.json (.obj [("type", .str "user"), ("cwd", .str "/w")]),
         .json (.obj [("type", .str "summary")])]))[1]?
      = some { session_id := "f", project_path := "/w", project_dir := "-p"
               file_name := "f.jsonl", is_agent := false, line_number := 2
               message_type := "summary", uuid := none, parent_uuid := none
               timestamp := none, message_role := none, message_content := none
               model := none, tool_name := none, tool_use_id := none
               tool_input := none, input_tokens := none, output_tokens := none
               cache_creation_tokens := none, cache_read_tokens := none
               slug := none, git_branch := none, cwd := none, version := none
               stop_reason := none } :=
  (c1_backfill_first_present_cwd "-p" "f.jsonl" false
      [.json (.obj [("type", .str "user"), ("cwd", .str "/w")]),
       .json (.obj [("type", .str "summary")])] "/w" (by decide)).1 1
    { session_id := "f", project_path := "/p", project_dir := "-p"
      file_name := "f.jsonl", is_agent := false, line_number := 2
      message_type := "summary", uuid := none, parent_uuid := none
      timestamp := none, message_role := none, message_content := none
      model := none, tool_name := none, tool_use_id := none
      tool_input := none, input_tokens := none, output_tokens := none
      cache_creation_tokens := none, cache_read_tokens := none
      slug := none, git_branch := none, cwd := none, version := none
      stop_reason := none } (by decide) (by decide)

/-- Counterexample for C3: a record that is a JSON object with the
unrecognized type tag "foo.bar" produces a row whose message type is the
sentinel "_parse_error", not the literal "unknown" the claim requires. -/
theorem c3_counterexample :
    ((processFile "-p" "f.jsonl" false
        [.json (.obj [("type", .str "foo.bar")])]).map (fun r => r.message_type))
      = ["_parse_error"]
    ∧ ("_parse_error" : String) ≠ "unknown" :=
  ⟨by decide, by decide⟩

/-- C3 (amended): a record decoding as a JSON object whose type tag is a
string outside the six recognized tags yields exactly one sentinel row with
message type "_parse_error" whose content carries the unknown-variant
failure reason; the Claude record type enum is closed, so unrecognized
types become parse-error rows rather than rows tagged "unknown". -/
theorem c3_unrecognized_tag (pd fn sid : String) (ag : Bool) (n : Nat)
    (kvs : List (String × Json)) (t : String)
    (h1 : jLookup kvs "type" = some (.str t))
    (h2 : t ≠ "user") (h3 : t ≠ "assistant") (h4 : t ≠ "system")
    (h5 : t ≠ "file-history-snapshot") (h6 : t ≠ "queue-operation")
    (h7 : t ≠ "summary") :
    rowsOfLine pd fn ag sid n (.json (.obj kvs))
      = [parseErrorRow pd fn ag sid n ("unknown variant " ++ t)]
    ∧ (parseErrorRow pd fn ag sid n ("unknown variant " ++ t)).message_type
        = "_parse_error"
    ∧ (parseErrorRow pd fn ag sid n ("unknown variant " ++ t)).message_content
        = some ("Parse error: " ++ ("unknown variant " ++ t)) := by
  have hdec : decodeConversationMessage (.obj kvs) = .error ("unknown variant " ++ t) := by
    simp [decodeConversationMessage, h1, h2, h3, h4, h5, h6, h7]
  exact ⟨by simp [rowsOfLine, hdec], rfl, rfl⟩

/-- Witness for C3: the amended claim applied to the concrete unrecognized
tag "foo.bar". -/
theorem c3_witness :
    rowsOfLine "-p" "f.jsonl" false "f" 1
        (.json (.obj [("type", .str "foo.bar")]))
      = [parseErrorRow "-p" "f.jsonl" false "f" 1 ("unknown variant " ++ "foo.bar")] :=
  (c3_unrecognized_tag "-p" "f.jsonl" "f" false 1 [("type", .str "foo.bar")] "foo.bar"
    rfl (by decide) (by decide) (by decide) (by decide) (by decide) (by decide)).1

/-- Counterexample for C8: an assistant message whose block array holds a
thinking block carrying a text attribute "SECRET" and a text block "hello":
the emitted row's content is "hello" alone, while the claim's rule (join
the texts of all blocks carrying a text attribute, which is what
extract_text_content computes) yields "SECRET\nhello". -/
theorem c8_counterexample :
    ((rowsOfLine "-p" "f.jsonl" false "f" 1
        (.json (.obj [("type", .str "assistant"),
          ("message", .obj [("content", .arr
            [.obj [("type", .str "thinking"), ("text", .str "SECRET")],
             .obj [("type", .str "text"), ("text", .str "hello")]])])]))).map
        (fun r => r.message_content))
      = [some "hello"]
    ∧ extract_text_content (.arr
        [.obj [("type", .str "thinking"), ("text", .str "SECRET")],
         .obj [("type", .str "text"), ("text", .str "hello")]])
      = "SECRET\nhello"
    ∧ (some "hello" : Option String) ≠ some "SECRET\nhello" :=
  ⟨by decide, by decide, by decide⟩

/-- C8 (amended): user and system message content goes through
extract_text_content, where a plain string is used verbatim and an array is
filtered to the items with a string text attribute, joined with newlines in
array order; assistant message content is a typed block array, and the
row's content joins, in block order, the texts of the blocks whose type is
text only, other blocks contributing nothing even when they carry a text
attribute (a plain-string assistant content fails record decode instead). -/
theorem c8_text_content_rules :
    (∀ s : String, extract_text_content (.str s) = s)
    ∧ (∀ items : List Json, extract_text_content (.arr items)
        = String.intercalate "\n" (items.filterMap textAttr))
    ∧ (∀ (u : UserMessage) (pd fn sid : String) (ag : Bool) (n : Nat)
        (mc : UserMessageContent) (v : Json),
        u.message = some mc → mc.content = some v →
        (message_to_row (.user u) pd fn ag sid n).message_content
          = some (extract_text_content v))
    ∧ (∀ (sm : SystemMessage) (pd fn sid : String) (ag : Bool) (n : Nat) (v : Json),
        sm.content = some v →
        (message_to_row (.system sm) pd fn ag sid n).message_content
          = some (extract_text_content v))
    ∧ (∀ (a : AssistantMessage) (pd fn sid : String) (ag : Bool) (n : Nat)
        (m : AssistantMessageContent) (blocks : List ContentBlock),
        a.message = some m → m.content = some blocks →
        (message_to_row (.assistant a) pd fn ag sid n).message_content
          = some (String.intercalate "\n" (blocks.filterMap textOfBlock)))
    ∧ (∀ (kvs mkvs : List (String × Json)) (s : String),
        jLookup kvs "type" = some (.str "assistant") →
        jLookup kvs "message" = some (.obj mkvs) →
        jLookup mkvs "content" = some (.str s) →
        ∃ e, decodeConversationMessage (.obj kvs) = .error e) := by
  refine ⟨fun s => rfl, fun items => rfl, ?_, ?_, ?_, ?_⟩
  · intro u pd fn sid ag n mc v hm hc
    simp [message_to_row, hm, hc]
  · intro sm pd fn sid ag n v hc
    simp [message_to_row, hc]
  · intro a pd fn sid ag n m blocks hm hc
    simp [message_to_row, hm, hc]
  · intro kvs mkvs s ht hm hc
    cases hb : decodeBaseFields kvs with
    | error e =>
      exact ⟨e, by
        simp [decodeConversationMessage, ht, hm, hb, Bind.bind, Except.bind]⟩
    | ok base =>
      cases hmod : getStrOpt mkvs "model" with
      | error e =>
        exact ⟨e, by
          simp [decodeConversationMessage, ht, hm, hb, decodeAssistantContent, hmod,
            Bind.bind, Except.bind, Except.map]⟩
      | ok model =>
        exact ⟨"invalid type: expected a sequence", by
          simp [decodeConversationMessage, ht, hm, hb, decodeAssistantContent, hmod, hc,
            Bind.bind, Except.bind, Except.map]⟩

/-- Witness for C8: the amended rules applied to the spec's own example
rows, a user message with plain-string content "hi" and an assistant
message with one text block "hello". -/
theorem c8_witness :
    (message_to_row
        (.user ⟨⟨none, none, none, none, none, none, none, none⟩,
          some ⟨some (.str "hi")⟩⟩) "-p" "f.jsonl" false "f" 1).message_content
      = some (extract_text_content (.str "hi"))
    ∧ (message_to_row
        (.assistant ⟨⟨none, none, none, none, none, none, none, none⟩,
          some ⟨none, some [.text "hello"], none, none⟩⟩)
        "-p" "f.jsonl" false "f" 2).message_content
      = some (String.intercalate "\n" ([ContentBlock.text "hello"].filterMap textOfBlock)) :=
  ⟨c8_text_content_rules.2.2.1 _ "-p" "f.jsonl" "f" false 1 _ (.str "hi") rfl rfl,
   c8_text_content_rules.2.2.2.2.1 _ "-p" "f.jsonl" "f" false 2 _ [ContentBlock.text "hello"]
     rfl rfl⟩

/-- C10: the todos scan processes discovered files independently, an
unreadable file yields zero rows without aborting the scan, and a file
whose document fails to decode as a todo-item array yields exactly one
sentinel row with item index -1, status "_parse_error" and content carrying
the parse-error text, while a decoded document yields one row per item. -/
theorem c10_todo_error_handling :
    (∀ (f : TodoFile) (fs : List TodoFile),
        todosLoadRows (f :: fs) = todoFileRows f ++ todosLoadRows fs)
    ∧ (∀ f : TodoFile, f.content = none → todoFileRows f = [])
    ∧ (∀ (f : TodoFile) (e : String), f.content = some (.notJson e) →
        (todoFileRows f).map (fun r => (r.item_index, r.status, r.content))
          = [(-1, "_parse_error", "Parse error: " ++ e)])
    ∧ (∀ (f : TodoFile) (j : Json) (e : String), f.content = some (.json j) →
        decodeTodoItems j = .error e →
        (todoFileRows f).map (fun r => (r.item_index, r.status, r.content))
          = [(-1, "_parse_error", "Parse error: " ++ e)])
    ∧ (∀ (f : TodoFile) (j : Json) (items : List TodoItem),
        f.content = some (.json j) → decodeTodoItems j = .ok items →
        (todoFileRows f).length = items.length) := by
  refine ⟨?_, ?_, ?_, ?_, ?_⟩
  · intro f fs
    rfl
  · intro f h
    simp [todoFileRows, h]
  · intro f e h
    simp [todoFileRows, h, todoErrorRow]
  · intro f j e hj hd
    simp [todoFileRows, hj, hd, todoErrorRow]
  · intro f j items hj hd
    simp [todoFileRows, hj, hd]

/-- Witness for C10: a concrete scan over a file whose document is not an
array (one sentinel row) followed by an unreadable file (zero rows). -/
theorem c10_witness :
    todosLoadRows [⟨"s1", "a1", "t1.json", some (.json (.str "oops"))⟩,
        ⟨"s2", "a2", "t2.json", none⟩]
      = todoFileRows ⟨"s1", "a1", "t1.json", some (.json (.str "oops"))⟩
        ++ todosLoadRows [⟨"s2", "a2", "t2.json", none⟩]
    ∧ todoFileRows ⟨"s2", "a2", "t2.json", none⟩ = []
    ∧ (todoFileRows ⟨"s1", "a1", "t1.json", some (.json (.str "oops"))⟩).map
        (fun r => (r.item_index, r.status, r.content))
      = [(-1, "_parse_error", "Parse error: " ++ "invalid type: expected a sequence")] :=
  ⟨c10_todo_error_handling.1 _ _,
   c10_todo_error_handling.2.1 _ rfl,
   c10_todo_error_handling.2.2.2.1 _ (.str "oops") "invalid type: expected a sequence"
     rfl rfl⟩

/-- Membership in a stable insertion. -/
theorem mem_insertLe (le : α → α → Bool) (a b : α) (l : List α) :
    b ∈ insertLe le a l ↔ b = a ∨ b ∈ l := by
  induction l with
  | nil => simp [insertLe]
  | cons c cs ih =>
    unfold insertLe
    by_cases h : le a c = true
    · rw [if_pos h]
      simp only [List.mem_cons]
    · rw [if_neg h]
      simp only [List.mem_cons, ih]
      tauto

/-- Stable insertion permutes the cons. -/
theorem insertLe_perm (le : α → α → Bool) (a : α) (l : List α) :
    (insertLe le a l).Perm (a :: l) := by
  induction l with
  | nil => exact List.Perm.refl _
  | cons c cs ih =>
    unfold insertLe
    by_cases h : le a c = true
    · rw [if_pos h]
    · rw [if_neg h]
      exact ((ih.cons c).trans (List.Perm.swap a c cs))

/-- The stable sort permutes its input. -/
theorem sortLe_perm (le : α → α → Bool) (l : List α) : (sortLe le l).Perm l := by
  induction l with
  | nil => exact List.Perm.refl _
  | cons a as ih =>
    exact (insertLe_perm le a (sortLe le as)).trans (ih.cons a)

/-- Stable insertion into a le-sorted list preserves sortedness, for a total
and transitive le. -/
theorem pairwise_insertLe (le : α → α → Bool)
    (htrans : ∀ a b c, le a b = true → le b c = true → le a c = true)
    (htotal : ∀ a b, (le a b || le b a) = true)
    (a : α) (l : List α) (hl : l.Pairwise (fun x y => le x y = true)) :
    (insertLe le a l).Pairwise (fun x y => le x y = true) := by
  induction l with
  | nil => simp [insertLe]
  | cons b bs ih =>
    rw [List.pairwise_cons] at hl
    unfold insertLe
    by_cases h : le a b = true
    · rw [if_pos h, List.pairwise_cons]
      refine ⟨?_, List.pairwise_cons.mpr hl⟩
      intro x hx
      rcases List.mem_cons.mp hx with rfl | hx
      · exact h
      · exact htrans a b x h (hl.1 x hx)
    · rw [if_neg h, List.pairwise_cons]
      have hba : le b a = true := by
        have := htotal a b
        rcases Bool.or_eq_true_iff.mp this with h1 | h1
        · exact absurd h1 h
        · exact h1
      refine ⟨?_, ih hl.2⟩
      intro x hx
      rcases (mem_insertLe le a x bs).mp hx with rfl | hx
      · exact hba
      · exact hl.1 x hx

/-- The stable sort produces a le-sorted list, for a total and transitive
le. -/
theorem pairwise_sortLe (le : α → α → Bool)
    (htrans : ∀ a b c, le a b = true → le b c = true → le a c = true)
    (htotal : ∀ a b, (le a b || le b a) = true)
    (l : List α) : (sortLe le l).Pairwise (fun x y => le x y = true) := by
  induction l with
  | nil => simp [sortLe]
  | cons a as ih => exact pairwise_insertLe le htrans htotal a (sortLe le as) ih

/-- The lexicographic order on char lists is total. -/
theorem charListLe_total : ∀ as bs : List Char, (charListLe as bs || charListLe bs as) = true := by
  intro as
  induction as with
  | nil => intro bs; simp [charListLe]
  | cons a as ih =>
    intro bs
    cases bs with
    | nil => simp [charListLe]
    | cons b bs =>
      simp only [charListLe]
      rcases lt_trichotomy a b with h | h | h
      · simp [h]
      · subst h
        simp only [if_neg (lt_irrefl a)]
        exact ih bs
      · have hn : ¬ a < b := asymm h
        simp [h, hn]

/-- The lexicographic order on char lists is transitive. -/
theorem charListLe_trans : ∀ as bs cs : List Char,
    charListLe as bs = true → charListLe bs cs = true → charListLe as cs = true := by
  intro as
  induction as with
  | nil => intro bs cs _ _; simp [charListLe]
  | cons a as ih =>
    intro bs cs h1 h2
    cases bs with
    | nil => simp [charListLe] at h1
    | cons b bs =>
      cases cs with
      | nil => simp [charListLe] at h2
      | cons c cs =>
        simp only [charListLe] at h1 h2 ⊢
        rcases lt_trichotomy a b with hab | hab | hab
        · rcases lt_trichotomy b c with hbc | hbc | hbc
          · have : a < c := lt_trans hab hbc
            simp [this]
          · subst hbc
            simp [hab]
          · have hn1 : ¬ b < c := asymm hbc
            simp [hn1, hbc] at h2
        · subst hab
          rcases lt_trichotomy a c with hac | hac | hac
          · simp [hac]
          · subst hac
            simp [lt_irrefl] at h1 h2 ⊢
            exact ih bs cs h1 h2
          · have hn1 : ¬ a < c := asymm hac
            simp [hn1, hac] at h2
        · have hn1 : ¬ a < b := asymm hab
          simp [hn1, hab] at h1

/-- Identity fields stamped by the projection. -/
theorem message_to_row_fields (msg : ConversationMessage) (pd fn sid : String)
    (ag : Bool) (n : Nat) :
    (message_to_row msg pd fn ag sid n).file_name = fn
    ∧ (message_to_row msg pd fn ag sid n).project_dir = pd
    ∧ (message_to_row msg pd fn ag sid n).is_agent = ag := by
  cases msg <;> exact ⟨rfl, rfl, rfl⟩

/-- Identity fields of every row contributed by one line. -/
theorem rowsOfLine_fields (pd fn sid : String) (ag : Bool) (n : Nat) (l : PLine) :
    ∀ r ∈ rowsOfLine pd fn ag sid n l,
      r.file_name = fn ∧ r.project_dir = pd ∧ r.is_agent = ag := by
  intro r hr
  cases l with
  | blank => simp [rowsOfLine] at hr
  | notJson e =>
    simp [rowsOfLine] at hr
    rw [hr]
    exact ⟨rfl, rfl, rfl⟩
  | json j =>
    cases hdec : decodeConversationMessage j with
    | ok msg =>
      simp [rowsOfLine, hdec] at hr
      rw [hr]
      exact message_to_row_fields msg pd fn sid ag n
    | error e =>
      simp [rowsOfLine, hdec] at hr
      rw [hr]
      exact ⟨rfl, rfl, rfl⟩

/-- Identity fields of every row of the file loop. -/
theorem processFileAux_fields (pd fn sid : String) (ag : Bool) :
    ∀ (ls : List PLine) (n : Nat), ∀ r ∈ processFileAux pd fn ag sid n ls,
      r.file_name = fn ∧ r.project_dir = pd ∧ r.is_agent = ag := by
  intro ls
  induction ls with
  | nil => intro n r hr; simp [processFileAux] at hr
  | cons l ls ih =>
    intro n r hr
    unfold processFileAux at hr
    rcases List.mem_append.mp hr with h | h
    · exact rowsOfLine_fields pd fn sid ag (n + 1) l r h
    · exact ih (n + 1) r h

/-- The backfill pass only rewrites the project path: the other fields of
each row of the file survive unchanged at their position. -/
theorem backfillFile_fields (pd : String) (rows : List ConversationRow) :
    ∀ r ∈ backfillFile pd rows, ∃ r0 ∈ rows,
      r.file_name = r0.file_name ∧ r.project_dir = r0.project_dir
      ∧ r.is_agent = r0.is_agent ∧ r.line_number = r0.line_number := by
  intro r hr
  unfold backfillFile at hr
  cases hfs : rows.findSome? (fun r => r.cwd) with
  | none =>
    rw [hfs] at hr
    exact ⟨r, hr, rfl, rfl, rfl, rfl⟩
  | some c =>
    rw [hfs] at hr
    rcases List.mem_map.mp hr with ⟨r0, hr0, heq⟩
    by_cases h0 : r0.project_path = decode_project_path pd
    · rw [if_pos h0] at heq
      exact ⟨r0, hr0, by rw [← heq], by rw [← heq], by rw [← heq], by rw [← heq]⟩
    · rw [if_neg h0] at heq
      exact ⟨r0, hr0, by rw [← heq], by rw [← heq], by rw [← heq], by rw [← heq]⟩

/-- The backfill pass keeps the line-number sequence of the file's rows. -/
theorem backfillFile_line_numbers (pd : String) (rows : List ConversationRow) :
    (backfillFile pd rows).map (fun r => r.line_number)
      = rows.map (fun r => r.line_number) := by
  unfold backfillFile
  cases hfs : rows.findSome? (fun r => r.cwd) with
  | none => rfl
  | some c =>
    rw [List.map_map]
    apply List.map_congr_left
    intro r _
    by_cases h0 : r.project_path = decode_project_path pd
    · simp [h0]
    · simp [h0]

/-- Lists of at most one element are vacuously pairwise related. -/
theorem pairwise_of_length_le_one {R : α → α → Prop} (l : List α)
    (h : l.length ≤ 1) : l.Pairwise R := by
  cases l with
  | nil => exact List.Pairwise.nil
  | cons a as =>
    cases as with
    | nil => simp
    | cons b bs => simp at h

/-- Line numbers of the file loop strictly increase in emission order. -/
theorem processFileAux_lines_pairwise (pd fn sid : String) (ag : Bool) :
    ∀ (ls : List PLine) (n : Nat),
      ((processFileAux pd fn ag sid n ls).map (fun r => r.line_number)).Pairwise (· < ·) := by
  intro ls
  induction ls with
  | nil => intro n; simp [processFileAux]
  | cons l ls ih =>
    intro n
    unfold processFileAux
    rw [List.map_append, List.pairwise_append]
    refine ⟨?_, ih (n + 1), ?_⟩
    · apply pairwise_of_length_le_one
      rw [List.length_map, rowsOfLine_length]
      cases l <;> simp [PLine.isBlank]
    · intro a ha b hb
      rcases List.mem_map.mp ha with ⟨ra, hra, rfl⟩
      rcases List.mem_map.mp hb with ⟨rb, hrb, rfl⟩
      have h1 := rowsOfLine_line_number pd fn sid ag (n + 1) l ra hra
      have h2 := (processFileAux_line_bounds pd fn sid ag ls (n + 1) rb hrb).1
      rw [h1]
      exact h2

/-- Pairwise discovery order over the per-directory groups, given
name-sorted directories with distinct names. -/
theorem discover_pairwise_aux (ds : List (String × List FileEnt))
    (hp : ds.Pairwise (fun a b => strLe a.1 b.1 = true))
    (hn : (ds.map (fun d => d.1)).Nodup) :
    (ds.flatMap (fun d =>
      (sortLe (fun a b => strLe a.name b.name)
          (d.2.filter (fun f => fileExtension f.name = some "jsonl"))).map (fun f =>
        (⟨d.1, strStartsWith f.name "agent-", f.name, f.lines⟩ : DiscoveredFile)))).Pairwise
      discoveredBefore := by
  induction ds with
  | nil => simp
  | cons d ds ih =>
    rw [List.flatMap_cons, List.pairwise_append]
    rw [List.pairwise_cons] at hp
    rw [List.map_cons, List.nodup_cons] at hn
    refine ⟨?_, ih hp.2 hn.2, ?_⟩
    · rw [List.pairwise_map]
      have hsorted := pairwise_sortLe (fun a b : FileEnt => strLe a.name b.name)
        (fun a b c => charListLe_trans a.name.data b.name.data c.name.data)
        (fun a b => charListLe_total a.name.data b.name.data)
        (d.2.filter (fun f => fileExtension f.name = some "jsonl"))
      exact hsorted.imp (fun h => Or.inl ⟨rfl, h⟩)
    · intro a ha b hb
      rcases List.mem_map.mp ha with ⟨fa, _, rfl⟩
      rcases List.mem_flatMap.mp hb with ⟨d2, hd2, hb2⟩
      rcases List.mem_map.mp hb2 with ⟨fb, _, rfl⟩
      right
      constructor
      · intro hcontra
        apply hn.1
        rw [List.mem_map]
        exact ⟨d2, hd2, hcontra.symm⟩
      · exact hp.1 d2 hd2

/-- C9: discovery enumerates project directories sorted by name and, within
each, the jsonl files sorted by name, classifying a file as agent-owned
exactly when its name starts with "agent-"; and the emitted row list is the
concatenation of per-file row lists in discovery order, each per-file list
carrying that file's identity with strictly ascending line numbers. -/
theorem c9_discovery_and_row_order (fs : ProjectsFS)
    (hnodup : (fs.dirs.map (fun d => d.1)).Nodup) :
    (∀ d ∈ discover_conversation_files fs,
        fileExtension d.fileName = some "jsonl"
        ∧ d.isAgent = strStartsWith d.fileName "agent-")
    ∧ (discover_conversation_files fs).Pairwise discoveredBefore
    ∧ conversationsLoadRows fs = (discover_conversation_files fs).flatMap loadFile
    ∧ (∀ d : DiscoveredFile, ∀ r ∈ loadFile d,
        r.file_name = d.fileName ∧ r.project_dir = d.projectDir ∧ r.is_agent = d.isAgent)
    ∧ (∀ d : DiscoveredFile,
        ((loadFile d).map (fun r => r.line_number)).Pairwise (· < ·)) := by
  refine ⟨?_, ?_, rfl, ?_, ?_⟩
  · intro d hd
    unfold discover_conversation_files at hd
    rcases List.mem_flatMap.mp hd with ⟨dir, _, hd2⟩
    rcases List.mem_map.mp hd2 with ⟨f, hf, rfl⟩
    constructor
    · have hf2 : f ∈ dir.2.filter (fun f => fileExtension f.name = some "jsonl") :=
        (sortLe_perm (fun a b : FileEnt => strLe a.name b.name) _).mem_iff.mp hf
      have := List.of_mem_filter hf2
      simpa using this
    · rfl
  · unfold discover_conversation_files
    apply discover_pairwise_aux
    · exact pairwise_sortLe (fun a b : String × List FileEnt => strLe a.1 b.1)
        (fun a b c => charListLe_trans a.1.data b.1.data c.1.data)
        (fun a b => charListLe_total a.1.data b.1.data) fs.dirs
    · have hperm : ((sortLe (fun a b : String × List FileEnt => strLe a.1 b.1)
          fs.dirs).map (fun d => d.1)).Perm (fs.dirs.map (fun d => d.1)) :=
        (sortLe_perm (fun a b : String × List FileEnt => strLe a.1 b.1) fs.dirs).map _
      exact hperm.nodup_iff.mpr hnodup
  · intro d r hr
    unfold loadFile at hr
    cases hl : d.lines with
    | none =>
      rw [hl] at hr
      simp at hr
    | some ls =>
      rw [hl] at hr
      rcases backfillFile_fields d.projectDir _ r hr with ⟨r0, hr0, e1, e2, e3, _⟩
      have := processFileAux_fields d.projectDir d.fileName
        (extract_session_id_from_filename d.fileName) d.isAgent ls 0 r0 hr0
      exact ⟨e1.trans this.1, e2.trans this.2.1, e3.trans this.2.2⟩
  · intro d
    unfold loadFile
    cases hl : d.lines with
    | none => simp
    | some ls =>
      rw [backfillFile_line_numbers]
      exact processFileAux_lines_pairwise d.projectDir d.fileName
        (extract_session_id_from_filename d.fileName) d.isAgent ls 0

/-- Witness for C9: a concrete two-directory tree, with a non-jsonl file
filtered out, directories and files name-sorted, and the agent flag set
exactly on the "agent-" file. -/
theorem c9_witness :
    ((ProjectsFS.mk [("-b", [⟨"z.jsonl", some []⟩, ⟨"agent-a.jsonl", some []⟩]),
        ("-a", [⟨"x.jsonl", some [.blank]⟩, ⟨"readme.md", none⟩])]).dirs.map
      (fun d => d.1)).Nodup
    ∧ (discover_conversation_files
        (ProjectsFS.mk [("-b", [⟨"z.jsonl", some []⟩, ⟨"agent-a.jsonl", some []⟩]),
          ("-a", [⟨"x.jsonl", some [.blank]⟩, ⟨"readme.md", none⟩])])).Pairwise
        discoveredBefore
    ∧ (discover_conversation_files
        (ProjectsFS.mk [("-b", [⟨"z.jsonl", some []⟩, ⟨"agent-a.jsonl", some []⟩]),
          ("-a", [⟨"x.jsonl", some [.blank]⟩, ⟨"readme.md", none⟩])])).map
        (fun d => (d.projectDir, d.fileName, d.isAgent))
      = [("-a", "x.jsonl", false), ("-b", "agent-a.jsonl", true), ("-b", "z.jsonl", false)] :=
  ⟨by decide,
   (c9_discovery_and_row_order
      (ProjectsFS.mk [("-b", [⟨"z.jsonl", some []⟩, ⟨"agent-a.jsonl", some []⟩]),
        ("-a", [⟨"x.jsonl", some [.blank]⟩, ⟨"readme.md", none⟩])]) (by decide)).2.1,
   by decide⟩
